import Mathlib

/-!
Verification development for the binance-streamer local order-book pipeline.

The embedding translates `src/binance_streamer/orderbook_manager.py`,
`src/binance_streamer/orderbook_process.py` and
`src/binance_streamer/file_writer.py` into executable Lean definitions.

Modelling conventions:
* Wire prices and quantities are strings parsed with Python `float`; the
  claims only involve small decimal values that floats represent exactly, so
  prices and quantities are modelled as rationals (`ℚ`) with numeric order.
* A `sortedcontainers.SortedDict` is modelled as an association list of
  (stored key, value) pairs kept sorted in ascending order of the dict's
  sort-key function applied to the stored key.  The bids dict of the source
  is `SortedDict(neg)` whose stored keys are the *negated* prices, so its
  effective iteration order is ascending `neg (-price) = price`.
* Update identifiers are naturals; wall-clock times are rationals passed
  explicitly where the source reads `time.time()`.
* Logging and network I/O are dropped; fetched snapshots are explicit inputs.
-/

set_option autoImplicit false

namespace BinanceStreamer

/-- `neg` from `orderbook_manager.py`: the sort-key function handed to the
bids `SortedDict`. -/
def neg (x : ℚ) : ℚ := -x

/-- Dict-style insertion into an association list sorted ascending by the
sort-key function `f` on stored keys: an existing key is overwritten in
place, a new key is placed before the first entry with a larger sort key. -/
def insertSorted (f : ℚ → ℚ) (k v : ℚ) : List (ℚ × ℚ) → List (ℚ × ℚ)
  | [] => [(k, v)]
  | (k', v') :: rest =>
    if k = k' then (k, v) :: rest
    else if f k < f k' then (k, v) :: (k', v') :: rest
    else (k', v') :: insertSorted f k v rest

/-- `dict.pop(k, None)`: remove the entry stored under key `k` (no-op when
absent). -/
def popKey (k : ℚ) (l : List (ℚ × ℚ)) : List (ℚ × ℚ) :=
  l.filter (fun e => decide (e.1 ≠ k))

/-- Dictionary lookup by stored key. -/
def lookupKey (k : ℚ) : List (ℚ × ℚ) → Option ℚ
  | [] => none
  | (k', v) :: rest => if k' = k then some v else lookupKey k rest

/-- A depth diff event (`U`, `u`, `pu`, `b`, `a`), with the price levels
already parsed to numbers. -/
structure DepthEvent where
  U : Nat
  u : Nat
  pu : Nat
  b : List (ℚ × ℚ)
  a : List (ℚ × ℚ)
  deriving DecidableEq, Repr

/-- A REST depth snapshot (`lastUpdateId`, `bids`, `asks`). -/
structure Snapshot where
  lastUpdateId : Nat
  bids : List (ℚ × ℚ)
  asks : List (ℚ × ℚ)
  deriving DecidableEq, Repr

/-- State of `LocalOrderBook`.  `bids` stores (negated price, qty) pairs in
the iteration order of `SortedDict(neg)`; `asks` stores (price, qty) pairs
in ascending price order. -/
structure LocalOrderBook where
  max_depth : Nat
  bids : List (ℚ × ℚ)
  asks : List (ℚ × ℚ)
  last_update_id : Nat
  is_synchronized : Bool
  update_count : Nat
  resync_count : Nat
  consecutive_failures : Nat
  last_resync_time : ℚ
  deriving DecidableEq, Repr

/-- `LocalOrderBook.__init__`. -/
def mkLocalOrderBook (max_depth : Nat) : LocalOrderBook :=
  { max_depth := max_depth
    bids := []
    asks := []
    last_update_id := 0
    is_synchronized := false
    update_count := 0
    resync_count := 0
    consecutive_failures := 0
    last_resync_time := 0 }

/-- `get_best_bid_ask`: the first entry of each side, with the bids key
negated back to a price. -/
def get_best_bid_ask (ob : LocalOrderBook) : Option ℚ × Option ℚ :=
  (ob.bids.head?.map (fun kv => -kv.1), ob.asks.head?.map (fun kv => kv.1))

/-- `get_spread`: `best_ask - best_bid` guarded by Python truthiness
(`if best_bid and best_ask`, so a price equal to `0.0` yields `None`). -/
def get_spread (ob : LocalOrderBook) : Option ℚ :=
  match get_best_bid_ask ob with
  | (some bb, some ba) => if bb ≠ 0 ∧ ba ≠ 0 then some (ba - bb) else none
  | _ => none

/-- The fields of the dict returned by `get_depth_summary` that the claims
speak about (string rendering of the levels is left as the identity on the
parsed numbers). -/
structure DepthSummary where
  last_update_id : Nat
  is_synchronized : Bool
  best_bid : Option ℚ
  best_ask : Option ℚ
  spread : Option ℚ
  bids_count : Nat
  asks_count : Nat
  top_bids : List (ℚ × ℚ)
  top_asks : List (ℚ × ℚ)
  update_count : Nat
  resync_count : Nat
  deriving DecidableEq, Repr

/-- `get_depth_summary(levels)`: the first `levels` entries of each side in
dict iteration order, bids keys negated back to prices. -/
def get_depth_summary (ob : LocalOrderBook) (levels : Nat) : DepthSummary :=
  { last_update_id := ob.last_update_id
    is_synchronized := ob.is_synchronized
    best_bid := (get_best_bid_ask ob).1
    best_ask := (get_best_bid_ask ob).2
    spread := get_spread ob
    bids_count := ob.bids.length
    asks_count := ob.asks.length
    top_bids := (ob.bids.take levels).map (fun kv => (-kv.1, kv.2))
    top_asks := ob.asks.take levels
    update_count := ob.update_count
    resync_count := ob.resync_count }

/-- The side insertion loop of `initialize_from_snapshot`, generic in the
dict's sort-key function `f` and the stored-key encoding `enc` (negation for
bids, identity for asks): levels with positive quantity are inserted, the
rest skipped. -/
def buildSide (f enc : ℚ → ℚ) (levels : List (ℚ × ℚ)) (acc : List (ℚ × ℚ)) : List (ℚ × ℚ) :=
  levels.foldl (fun acc pq => if 0 < pq.2 then insertSorted f (enc pq.1) pq.2 acc else acc) acc

/-- The bids insertion loop of `initialize_from_snapshot`: levels with
positive quantity are stored under their negated price. -/
def buildBids (levels : List (ℚ × ℚ)) : List (ℚ × ℚ) :=
  buildSide neg (fun p => -p) levels []

/-- The asks insertion loop of `initialize_from_snapshot`. -/
def buildAsks (levels : List (ℚ × ℚ)) : List (ℚ × ℚ) :=
  buildSide id (fun p => p) levels []

/-- `initialize_from_snapshot`: clear both sides, insert the snapshot levels
with positive quantity, adopt `lastUpdateId`, mark synchronized and reset
the failure counter. -/
def initialize_from_snapshot (ob : LocalOrderBook) (snap : Snapshot) : LocalOrderBook :=
  { ob with
    bids := buildBids snap.bids
    asks := buildAsks snap.asks
    last_update_id := snap.lastUpdateId
    is_synchronized := true
    consecutive_failures := 0 }

/-- One bid entry of `_apply_updates`: quantity zero pops the (negated)
price key, otherwise the quantity is stored under the negated price. -/
def applyBidLevel (bids : List (ℚ × ℚ)) (pq : ℚ × ℚ) : List (ℚ × ℚ) :=
  if pq.2 = 0 then popKey (-pq.1) bids else insertSorted neg (-pq.1) pq.2 bids

/-- One ask entry of `_apply_updates`. -/
def applyAskLevel (asks : List (ℚ × ℚ)) (pq : ℚ × ℚ) : List (ℚ × ℚ) :=
  if pq.2 = 0 then popKey pq.1 asks else insertSorted id pq.1 pq.2 asks

/-- The body of the depth-limit loop of `_apply_updates`, with an explicit
iteration bound so the definition is structurally recursive (each loop
iteration removes one entry, so `l.length` iterations always suffice). -/
def trimSideAux (max_depth : Nat) : Nat → List (ℚ × ℚ) → List (ℚ × ℚ)
  | 0, l => l
  | fuel + 1, l => if max_depth < l.length then trimSideAux max_depth fuel l.dropLast else l

/-- The depth-limit loop of `_apply_updates`: `while len > max_depth:
popitem(-1)`, i.e. repeatedly drop the last entry in iteration order. -/
def trimSide (max_depth : Nat) (l : List (ℚ × ℚ)) : List (ℚ × ℚ) :=
  trimSideAux max_depth l.length l

/-- `_apply_updates`: fold both update lists over the two sides, then trim
each side to `max_depth`. -/
def apply_updates (ob : LocalOrderBook) (bids_updates asks_updates : List (ℚ × ℚ)) :
    LocalOrderBook :=
  { ob with
    bids := trimSide ob.max_depth (bids_updates.foldl applyBidLevel ob.bids)
    asks := trimSide ob.max_depth (asks_updates.foldl applyAskLevel ob.asks) }

/-- `update_from_depth_event`: returns the Python function's boolean result
together with the mutated book. -/
def update_from_depth_event (ob : LocalOrderBook) (e : DepthEvent) (is_initial_sync : Bool) :
    Bool × LocalOrderBook :=
  if ob.is_synchronized = false then
    (false, ob)
  else if e.u ≤ ob.last_update_id then
    (true, ob)
  else if is_initial_sync = false ∧ e.pu ≠ ob.last_update_id then
    (false, { ob with
              consecutive_failures := ob.consecutive_failures + 1
              is_synchronized := false })
  else
    let ob2 := apply_updates ob e.b e.a
    (true, { ob2 with
             last_update_id := e.u
             update_count := ob2.update_count + 1
             consecutive_failures := 0 })

/-- The per-symbol slice of `OrderBookManager`: one book plus its event
buffer and the manager's resync threshold. -/
structure ManagerState where
  book : LocalOrderBook
  buffer : List DepthEvent
  resync_threshold : Nat
  deriving DecidableEq, Repr

/-- `handle_depth_event` (for one symbol); `now` is the `time.time()` value
read inside the resync-threshold branch. -/
def handle_depth_event (st : ManagerState) (e : DepthEvent) (now : ℚ) : ManagerState :=
  if st.book.is_synchronized = false then
    { st with buffer := st.buffer ++ [e] }
  else
    let r := update_from_depth_event st.book e false
    if r.1 then
      { st with book := r.2 }
    else
      let b := r.2
      let b2 :=
        if st.resync_threshold ≤ b.consecutive_failures ∧ 30 < now - b.last_resync_time then
          { b with last_resync_time := now, resync_count := b.resync_count + 1 }
        else b
      { st with book := b2, buffer := st.buffer ++ [e] }

/-- Stable insertion by ascending `u` (one step of the Python
`sort(key=lambda x: x['u'])`). -/
def insertByU (e : DepthEvent) : List DepthEvent → List DepthEvent
  | [] => [e]
  | x :: xs => if e.u < x.u then e :: x :: xs else x :: insertByU e xs

/-- The stable ascending-`u` sort applied to the buffered events. -/
def sortByU (l : List DepthEvent) : List DepthEvent :=
  l.foldl (fun acc e => insertByU e acc) []

/-- The event loop of `_process_buffered_events`: skip events with
`u < last_update_id`; skip events until the first one bracketing
`last_update_id`; afterwards feed every event to `update_from_depth_event`
in initial-sync mode; on a failed update the remaining events (the failing
one included) are returned to the buffer. -/
def processBufferedLoop (ob : LocalOrderBook) (first_valid : Bool) :
    List DepthEvent → LocalOrderBook × List DepthEvent
  | [] => (ob, [])
  | e :: rest =>
    if e.u < ob.last_update_id then
      processBufferedLoop ob first_valid rest
    else if first_valid = false ∧ ¬(e.U ≤ ob.last_update_id ∧ ob.last_update_id ≤ e.u) then
      processBufferedLoop ob first_valid rest
    else
      let r := update_from_depth_event ob e true
      if r.1 then processBufferedLoop r.2 true rest
      else (r.2, e :: rest)

/-- `_process_buffered_events`: drain the buffer, sort it ascending by `u`,
run the loop, and leave in the buffer whatever the loop put back. -/
def process_buffered_events (st : ManagerState) : ManagerState :=
  let r := processBufferedLoop st.book false (sortByU st.buffer)
  { st with book := r.1, buffer := r.2 }

/-- `initialize_orderbook` after a successful snapshot fetch (the fetch
itself is an explicit input): snapshot initialization followed by the
buffered-event reconcile.  `resync_orderbook` runs the same two steps. -/
def initialize_orderbook (st : ManagerState) (snap : Snapshot) : ManagerState :=
  process_buffered_events { st with book := initialize_from_snapshot st.book snap }

/-- Prices present on the bid side (stored keys negated back). -/
def bidPrices (ob : LocalOrderBook) : List ℚ := ob.bids.map (fun kv => -kv.1)

/-- Prices present on the ask side. -/
def askPrices (ob : LocalOrderBook) : List ℚ := ob.asks.map (fun kv => kv.1)

/-- Maximum of a price list, `none` on the empty list. -/
def maxPrice (l : List ℚ) : Option ℚ :=
  l.foldl (fun acc p => match acc with | none => some p | some m => some (max m p)) none

/-- Minimum of a price list, `none` on the empty list. -/
def minPrice (l : List ℚ) : Option ℚ :=
  l.foldl (fun acc p => match acc with | none => some p | some m => some (min m p)) none

/-!
## The batched CSV writer (`file_writer.py`, `multi_queue_writer_process`)

The writer consumes tagged records and keeps one pending batch per
(stream-type, symbol).  A record whose batch reaches `batch_size` triggers an
immediate flush of that batch; the time trigger (modelled as an explicit
`tick` operation) flushes all pending batches.  Flushed rows go to the
per-kind, per-symbol file (per-day naming is constant within a run, so a
file is identified by its (kind, symbol) pair; the kind→file-name-prefix map
of the source is injective).  The four row kinds append one CSV row per
record through `ensure_csv_header`/`append_csv_rows` (or the equivalent
pandas `save_to_csv`): on first touch the file is created with one header
line, afterwards rows are appended; the `depth_snapshot` kind instead
rewrites its whole file (`DataFrame.to_csv` without append mode) with one
long-format row per price level.  Row construction keeps the record itself
(the source's per-kind field extraction is a bijective reshaping of the
record's payload).
-/

/-- The writer's record tags (`aggtrade`, `depth`, `kline`,
`orderbook_summary`, `depth_snapshot`). -/
inductive RecordKind
  | aggtrade
  | depth
  | kline
  | summary
  | snapshot
  deriving DecidableEq, Repr

/-- A record taken off a symbol queue: its tag, its symbol, an abstract raw
payload, and (used by the `depth_snapshot` kind only) its two ladders. -/
structure WriterRecord where
  kind : RecordKind
  symbol : String
  payloadId : Nat
  bids : List (ℚ × ℚ)
  asks : List (ℚ × ℚ)
  deriving DecidableEq, Repr

/-- A CSV data row: either the one-row rendering of a whole record, or one
long-format level row of a depth snapshot (`side` true for bids). -/
inductive CsvRow
  | ofRecord (r : WriterRecord)
  | ofLevel (side : Bool) (rank : Nat) (price qty : ℚ)
  deriving DecidableEq, Repr

/-- A CSV file: how many header lines it holds and its data rows. -/
structure CsvFile where
  headerCount : Nat
  rows : List CsvRow
  deriving DecidableEq, Repr

/-- Pointwise update of the batch store at one (kind, symbol) key. -/
def updBatch (f : RecordKind → String → List WriterRecord) (k : RecordKind) (s : String)
    (v : List WriterRecord) : RecordKind → String → List WriterRecord :=
  fun k' s' => if k' = k ∧ s' = s then v else f k' s'

/-- Pointwise update of the file store at one (kind, symbol) key. -/
def updFile (f : RecordKind → String → Option CsvFile) (k : RecordKind) (s : String)
    (v : Option CsvFile) : RecordKind → String → Option CsvFile :=
  fun k' s' => if k' = k ∧ s' = s then v else f k' s'

/-- Writer state: the insertion-ordered key set of the `defaultdict` of
batches, the pending batches, and the filesystem (`none` = file absent). -/
structure WriterState where
  keys : List (RecordKind × String)
  batches : RecordKind → String → List WriterRecord
  files : RecordKind → String → Option CsvFile

/-- The empty writer state (no batches, no files). -/
def initWriterState : WriterState :=
  { keys := [], batches := fun _ _ => [], files := fun _ _ => none }

/-- Stable insertion of a level into an ascending-by-price list. -/
def insLevelAsc (e : ℚ × ℚ) : List (ℚ × ℚ) → List (ℚ × ℚ)
  | [] => [e]
  | x :: xs => if e.1 < x.1 then e :: x :: xs else x :: insLevelAsc e xs

/-- Stable insertion of a level into a descending-by-price list. -/
def insLevelDesc (e : ℚ × ℚ) : List (ℚ × ℚ) → List (ℚ × ℚ)
  | [] => [e]
  | x :: xs => if x.1 < e.1 then e :: x :: xs else x :: insLevelDesc e xs

/-- Stable ascending sort of price levels (`DataFrame.sort_values`). -/
def sortLevelsAsc (l : List (ℚ × ℚ)) : List (ℚ × ℚ) :=
  l.foldl (fun acc e => insLevelAsc e acc) []

/-- Stable descending sort of price levels (`sort_values(ascending=False)`). -/
def sortLevelsDesc (l : List (ℚ × ℚ)) : List (ℚ × ℚ) :=
  l.foldl (fun acc e => insLevelDesc e acc) []

/-- The long-format rows `_flush_depth_snapshot_batch` writes for one
snapshot record: bids descending then asks ascending, ranked from 1. -/
def snapshotRows (r : WriterRecord) : List CsvRow :=
  ((sortLevelsDesc r.bids).enum.map (fun ie => CsvRow.ofLevel true (ie.1 + 1) ie.2.1 ie.2.2)) ++
  ((sortLevelsAsc r.asks).enum.map (fun ie => CsvRow.ofLevel false (ie.1 + 1) ie.2.1 ie.2.2))

/-- `ensure_csv_header` + `append_csv_rows`: an empty row list returns
early; a missing file is created with exactly one header line; an existing
file is opened in append mode and the rows are appended. -/
def writeRowsToFile (files : RecordKind → String → Option CsvFile) (k : RecordKind)
    (s : String) (rows : List CsvRow) : RecordKind → String → Option CsvFile :=
  if rows.isEmpty then files
  else
    match files k s with
    | none => updFile files k s (some { headerCount := 1, rows := rows })
    | some f => updFile files k s (some { f with rows := f.rows ++ rows })

/-- A row-kind batch flush (`_flush_aggtrade_batch_optimized` etc.): one CSV
row per record, appended. -/
def flushRowBatch (files : RecordKind → String → Option CsvFile) (k : RecordKind)
    (s : String) (records : List WriterRecord) : RecordKind → String → Option CsvFile :=
  writeRowsToFile files k s (records.map CsvRow.ofRecord)

/-- `_flush_depth_snapshot_batch`: each record in the batch overwrites the
whole per-day snapshot file with its own long-format rows (header
included). -/
def flushSnapshotBatch (files : RecordKind → String → Option CsvFile) (s : String)
    (records : List WriterRecord) : RecordKind → String → Option CsvFile :=
  records.foldl
    (fun fs r => updFile fs RecordKind.snapshot s (some { headerCount := 1, rows := snapshotRows r }))
    files

/-- The per-kind flush dispatch of the writer loop. -/
def flushBatchFor (files : RecordKind → String → Option CsvFile) (k : RecordKind)
    (s : String) (records : List WriterRecord) : RecordKind → String → Option CsvFile :=
  match k with
  | RecordKind.snapshot => flushSnapshotBatch files s records
  | _ => flushRowBatch files k s records

/-- Flush one (kind, symbol) batch and clear it; an empty batch is skipped
(`if not records: continue`). -/
def flushOne (st : WriterState) (k : RecordKind) (s : String) : WriterState :=
  let records := st.batches k s
  if records.isEmpty then st
  else
    { st with
      batches := updBatch st.batches k s []
      files := flushBatchFor st.files k s records }

/-- `flush_batches`: flush every pending batch, in dict insertion order. -/
def flushAll (st : WriterState) : WriterState :=
  st.keys.foldl (fun s ks => flushOne s ks.1 ks.2) st

/-- Receiving one record in the writer loop: append it to its batch
(registering the key on first use) and, when the batch has reached
`batch_size`, flush that batch immediately (the size trigger). -/
def recvRecord (batch_size : Nat) (st : WriterState) (r : WriterRecord) : WriterState :=
  let key := (r.kind, r.symbol)
  let keys := if key ∈ st.keys then st.keys else st.keys ++ [key]
  let newBatch := st.batches r.kind r.symbol ++ [r]
  let st2 : WriterState :=
    { st with keys := keys, batches := updBatch st.batches r.kind r.symbol newBatch }
  if batch_size ≤ newBatch.length then flushOne st2 r.kind r.symbol else st2

/-- One observable step of the writer loop: a record arrives, or the
time-based flush fires. -/
inductive WriterOp
  | recv (r : WriterRecord)
  | tick
  deriving DecidableEq, Repr

/-- Interpretation of one writer-loop step. -/
def writerStep (batch_size : Nat) (st : WriterState) (op : WriterOp) : WriterState :=
  match op with
  | WriterOp.recv r => recvRecord batch_size st r
  | WriterOp.tick => flushAll st

/-- Run the writer loop from the empty state over a finite schedule. -/
def runWriterOps (batch_size : Nat) (ops : List WriterOp) : WriterState :=
  ops.foldl (writerStep batch_size) initWriterState

/-- The records consumed by the writer in a schedule. -/
def receivedRecords (ops : List WriterOp) : List WriterRecord :=
  ops.filterMap (fun op => match op with | WriterOp.recv r => some r | WriterOp.tick => none)

/-- The consumed records belonging to one (kind, symbol) key. -/
def recordsFor (k : RecordKind) (s : String) (l : List WriterRecord) : List WriterRecord :=
  l.filter (fun r => decide (r.kind = k ∧ r.symbol = s))

/-- The data rows of an optional file (absent file: no rows). -/
def fileRows : Option CsvFile → List CsvRow
  | none => []
  | some f => f.rows

/-!
## Concrete inputs used by witnesses and counterexamples
-/

/-- A synchronized book at `last_update_id = 200` holding bid 10 and ask 11. -/
def exBook : LocalOrderBook :=
  { mkLocalOrderBook 1000 with
    bids := [(-10, 1)], asks := [(11, 1)], last_update_id := 200, is_synchronized := true }

/-- The continuity-violating event of spec scenario 3: `U=210,u=215,pu=208`. -/
def exViolEvent : DepthEvent := { U := 210, u := 215, pu := 208, b := [], a := [] }

/-- The manager slice around `exBook`, threshold 5, empty buffer. -/
def exState : ManagerState := { book := exBook, buffer := [], resync_threshold := 5 }

/-- The snapshot of spec scenario 1: `lastUpdateId=100`, bid 10, ask 11. -/
def exSnap : Snapshot := { lastUpdateId := 100, bids := [(10, 1)], asks := [(11, 1)] }

/-- Scenario 1 buffered event e1: `U=99,u=101,pu=98`. -/
def exE1 : DepthEvent := { U := 99, u := 101, pu := 98, b := [], a := [] }

/-- Scenario 1 buffered event e2: `U=102,u=103,pu=101`. -/
def exE2 : DepthEvent := { U := 102, u := 103, pu := 101, b := [], a := [] }

/-- A continuity-respecting event that inserts a bid at 12 above the ask 11. -/
def exCrossEvent : DepthEvent := { U := 101, u := 101, pu := 100, b := [(12, 1)], a := [] }

/-- A book holding bids 10 and 12 and asks 13, 15 (as the code stores them). -/
def exBookTwoBids : LocalOrderBook :=
  { mkLocalOrderBook 1000 with
    bids := buildBids [(10, 1), (12, 1)], asks := buildAsks [(13, 2), (15, 1)],
    is_synchronized := true }

/-- A book with `max_depth = 1` holding the single bid 10. -/
def exTrimBook : LocalOrderBook :=
  { mkLocalOrderBook 1 with bids := [(-10, 1)], is_synchronized := true }

/-- A depth record for the writer (symbol "B"). -/
def exDepthRec (payloadId : Nat) : WriterRecord :=
  { kind := RecordKind.depth, symbol := "B", payloadId := payloadId, bids := [], asks := [] }

/-- A depth-snapshot record with one bid level and two ask levels. -/
def exSnapRec : WriterRecord :=
  { kind := RecordKind.snapshot, symbol := "B", payloadId := 0,
    bids := [(10, 1)], asks := [(11, 1), (12, 2)] }

/-- A second depth-snapshot record for the same symbol, one bid level. -/
def exSnapRec2 : WriterRecord :=
  { kind := RecordKind.snapshot, symbol := "B", payloadId := 1,
    bids := [(9, 5)], asks := [] }

/-- A writer schedule: two depth records (filling a batch of two), a third
depth record, then a time-trigger flush. -/
def exWriterOps : List WriterOp :=
  [WriterOp.recv (exDepthRec 1), WriterOp.recv (exDepthRec 2),
   WriterOp.recv (exDepthRec 3), WriterOp.tick]

/-- An event whose `pu` (998) matches nothing, with `u` above `exBook`'s
`last_update_id` of 200. -/
def exPuMismatch : DepthEvent := { U := 210, u := 215, pu := 998, b := [], a := [] }

/-- Every existing file holds exactly one header line. -/
def headerOk (files : RecordKind → String → Option CsvFile) : Prop :=
  ∀ k s f, files k s = some f → f.headerCount = 1

/-- The rows accounted to a (kind, symbol) key: the rows already in its
file followed by the rows its pending batch will produce. -/
def contentsAt (st : WriterState) (k : RecordKind) (s : String) : List CsvRow :=
  fileRows (st.files k s) ++ (st.batches k s).map CsvRow.ofRecord

/-- Writer-loop invariant: every pending batch's key is registered in the
dict key list, the accounted rows of every non-snapshot key are exactly one
row per record received for that key (in order), and headers are sound. -/
def goodState (st : WriterState) (recvd : List WriterRecord) : Prop :=
  (∀ k s, st.batches k s ≠ [] → (k, s) ∈ st.keys) ∧
  (∀ k s, k ≠ RecordKind.snapshot →
    contentsAt st k s = (recordsFor k s recvd).map CsvRow.ofRecord) ∧
  headerOk st.files

/-- The state after initializing from `exSnap` (bid 10, ask 11) and handling
the perfectly continuous event `exCrossEvent`, which inserts a bid at 12. -/
def exCrossedState : ManagerState :=
  handle_depth_event
    { book := initialize_from_snapshot (mkLocalOrderBook 1000) exSnap
      buffer := []
      resync_threshold := 5 }
    exCrossEvent 0

/-!
## Claim theorems

C2, C4, C6 and C7 are settled by concrete evaluation of the embedded code;
the remaining claims need the general lemmas proved further down.
-/

/-- C2: with snapshot `lastUpdateId = 50` and a buffer holding only the
event `(U=60, u=70, pu=55)`, no buffered event satisfies
`U ≤ lastUpdateId ≤ u`; the claim says the snapshot is then rejected and a
re-fetch triggered, but the code keeps the snapshot: the book stays
`synchronized = true` at `last_update_id = 50`, the stale event is
discarded (the buffer was drained and nothing is put back), and no code
path schedules a new snapshot fetch (`_process_buffered_events` merely
counts the event as skipped, and neither `initialize_orderbook` nor
`orderbook_sync_monitor` reacts, the latter because it requires
`is_synchronized` to be false and `consecutive_failures ≥ threshold`). -/
theorem C2_stale_snapshot_kept_not_refetched :
    (initialize_orderbook
        { book := mkLocalOrderBook 1000
          buffer := [{ U := 60, u := 70, pu := 55, b := [], a := [] }]
          resync_threshold := 5 }
        { lastUpdateId := 50, bids := [(10, 1)], asks := [(11, 1)] }) =
      { book := { mkLocalOrderBook 1000 with
                  bids := [(-10, 1)], asks := [(11, 1)],
                  last_update_id := 50, is_synchronized := true }
        buffer := []
        resync_threshold := 5 } := by
  decide

/-- C4: five consecutive continuity violations delivered to
`handle_depth_event` (book in Live at `last_update_id = 200`, each event
`(U=210, u=215, pu=208)`, `last_resync_time = 0`) leave
`consecutive_failures = 1` and `resync_count = 0`: the first violation sets
`is_synchronized = false`, after which the handler only buffers, so the
failure counter never reaches the threshold of 5 and no resync is ever
triggered — contradicting the claim that `consecutive_failures` reaches the
threshold and `resync_count` becomes 1. -/
theorem C4_threshold_resync_never_fires :
    (([exViolEvent, exViolEvent, exViolEvent, exViolEvent, exViolEvent].foldl
        (fun st e => handle_depth_event st e 1000000000) exState) =
      { book := { exBook with is_synchronized := false, consecutive_failures := 1 }
        buffer := [exViolEvent, exViolEvent, exViolEvent, exViolEvent, exViolEvent]
        resync_threshold := 5 }) := by
  decide

/-- C6: with `max_depth = 1` and the book holding only the bid at price 10,
applying the diff bid `(12, 1)` makes the bid side exceed `max_depth`; the
trim then removes the price-12 level (the best and newly inserted bid) and
keeps the price-10 level — the opposite of the claim (and of the code's own
comments), which say the lowest-priced bid is removed.  The cause: the bids
`SortedDict(neg)` stores negated keys AND sorts by the negating key
function, so iteration is ascending in price and `popitem(-1)` pops the
maximum price. -/
theorem C6_trim_removes_best_bid :
    (apply_updates exTrimBook [(12, 1)] []).bids = [(-10, 1)] ∧
    lookupKey (-12) (apply_updates exTrimBook [(12, 1)] []).bids = none ∧
    lookupKey (-10) (apply_updates exTrimBook [(12, 1)] []).bids = some 1 := by
  decide

/-- C7: on the book holding bids 10 and 12 and asks 13 and 15,
`get_best_bid_ask` returns bid 10 — the MINIMUM bid price, not the maximum
12 the claim states — because the double negation in the bids
`SortedDict(neg)` makes iteration ascending in price; the summary's
`top_bids` are likewise the lowest levels in ascending order, and the
spread is computed from the wrong bid (13 − 10 = 3 instead of 13 − 12 = 1).
The ask side behaves as claimed (minimum first). -/
theorem C7_best_bid_is_minimum_not_maximum :
    get_best_bid_ask exBookTwoBids = (some 10, some 13) ∧
    maxPrice (bidPrices exBookTwoBids) = some 12 ∧
    minPrice (askPrices exBookTwoBids) = some 13 ∧
    (get_depth_summary exBookTwoBids 2).top_bids = [(10, 1), (12, 1)] ∧
    (get_depth_summary exBookTwoBids 2).top_asks = [(13, 2), (15, 1)] ∧
    get_spread exBookTwoBids = some 3 := by
  refine ⟨by decide, by decide, by decide, by decide, by decide, ?_⟩
  have hbb : get_best_bid_ask exBookTwoBids = (some 10, some 13) := by decide
  simp only [get_spread, hbb]
  norm_num

/-- C1: happy-path reconcile.  Concretely: from snapshot `lastUpdateId=100`,
bids `{10:1}`, asks `{11:1}` and buffered events e1 `(U=99,u=101,pu=98)`
and e2 `(U=102,u=103,pu=101)`, the reconcile ends with
`last_update_id = 103`, `synchronized = true`, bids `{10:1}`, asks `{11:1}`
and an empty buffer.  Generally: once the first valid event has been found
(`first_valid = true`), every buffered event with `u > last_update_id` is
fed to `update_from_depth_event` in initial-sync mode and applied — with no
condition on its `pu`. -/
theorem C1_happy_path_reconcile :
    ((initialize_orderbook
        { book := mkLocalOrderBook 1000, buffer := [exE1, exE2], resync_threshold := 5 }
        exSnap) =
      { book := { mkLocalOrderBook 1000 with
                  bids := [(-10, 1)], asks := [(11, 1)],
                  last_update_id := 103, is_synchronized := true, update_count := 2 }
        buffer := []
        resync_threshold := 5 }) ∧
    (∀ (ob : LocalOrderBook) (e : DepthEvent) (rest : List DepthEvent),
      ob.is_synchronized = true →
      ob.last_update_id < e.u →
      (update_from_depth_event ob e true).1 = true ∧
      (update_from_depth_event ob e true).2.last_update_id = e.u ∧
      (update_from_depth_event ob e true).2.is_synchronized = true ∧
      processBufferedLoop ob true (e :: rest) =
        processBufferedLoop (update_from_depth_event ob e true).2 true rest) := by
  constructor
  · decide
  · intro ob e rest hs hu
    have h2 : ¬ e.u ≤ ob.last_update_id := by omega
    have h3 : ¬ e.u < ob.last_update_id := by omega
    refine ⟨?_, ?_, ?_, ?_⟩ <;>
      simp [update_from_depth_event, processBufferedLoop, apply_updates, hs, h2, h3]

/-- Witness for C1's general part: the synchronized book at
`last_update_id = 200` accepts, in initial-sync mode, an event with
`u = 215` whose `pu = 998` matches nothing. -/
theorem C1_happy_path_reconcile_witness :
    (update_from_depth_event exBook exPuMismatch true).1 = true ∧
    (update_from_depth_event exBook exPuMismatch true).2.last_update_id = exPuMismatch.u ∧
    (update_from_depth_event exBook exPuMismatch true).2.is_synchronized = true ∧
    processBufferedLoop exBook true (exPuMismatch :: []) =
      processBufferedLoop (update_from_depth_event exBook exPuMismatch true).2 true [] :=
  C1_happy_path_reconcile.2 exBook exPuMismatch [] rfl (by decide)

/-- C3: a continuity violation (`u > last_update_id`, `pu ≠ last_update_id`)
handled in Live increments `consecutive_failures` by one, clears
`is_synchronized`, appends the event to the buffer, and leaves `bids`,
`asks`, `last_update_id` and `update_count` unchanged (the optional
resync-threshold branch only touches `last_resync_time` and
`resync_count`). -/
theorem C3_continuity_violation_atomic :
    ∀ (st : ManagerState) (e : DepthEvent) (now : ℚ),
      st.book.is_synchronized = true →
      st.book.last_update_id < e.u →
      e.pu ≠ st.book.last_update_id →
      (handle_depth_event st e now).book.consecutive_failures =
          st.book.consecutive_failures + 1 ∧
      (handle_depth_event st e now).book.is_synchronized = false ∧
      (handle_depth_event st e now).buffer = st.buffer ++ [e] ∧
      (handle_depth_event st e now).book.bids = st.book.bids ∧
      (handle_depth_event st e now).book.asks = st.book.asks ∧
      (handle_depth_event st e now).book.last_update_id = st.book.last_update_id ∧
      (handle_depth_event st e now).book.update_count = st.book.update_count := by
  intro st e now hs hu hpu
  have h2 : ¬ e.u ≤ st.book.last_update_id := by omega
  have hr : update_from_depth_event st.book e false =
      (false, { st.book with
                consecutive_failures := st.book.consecutive_failures + 1
                is_synchronized := false }) := by
    simp [update_from_depth_event, hs, h2, hpu]
  simp only [handle_depth_event, hs, hr]
  norm_num
  split <;> simp

/-- Witness for C3: spec scenario 3, Live at `last_update_id = 200` with the
incoming event `(U=210, u=215, pu=208)`. -/
theorem C3_continuity_violation_atomic_witness :
    (handle_depth_event exState exViolEvent 1000000000).book.consecutive_failures =
        exState.book.consecutive_failures + 1 ∧
    (handle_depth_event exState exViolEvent 1000000000).book.is_synchronized = false ∧
    (handle_depth_event exState exViolEvent 1000000000).buffer =
        exState.buffer ++ [exViolEvent] ∧
    (handle_depth_event exState exViolEvent 1000000000).book.bids = exState.book.bids ∧
    (handle_depth_event exState exViolEvent 1000000000).book.asks = exState.book.asks ∧
    (handle_depth_event exState exViolEvent 1000000000).book.last_update_id =
        exState.book.last_update_id ∧
    (handle_depth_event exState exViolEvent 1000000000).book.update_count =
        exState.book.update_count :=
  C3_continuity_violation_atomic exState exViolEvent 1000000000 rfl (by decide) (by decide)

/-!
## General lemmas about the sorted-dict operations
-/

/-- Looking up after a dict insertion: the inserted key reads back its
value, every other key is untouched (for any sort-key function). -/
theorem lookupKey_insertSorted (f : ℚ → ℚ) (k0 v k : ℚ) (l : List (ℚ × ℚ)) :
    lookupKey k (insertSorted f k0 v l) = if k0 = k then some v else lookupKey k l := by
  induction l with
  | nil => simp [insertSorted, lookupKey]
  | cons hd tl ih =>
    obtain ⟨k1, v1⟩ := hd
    simp only [insertSorted]
    by_cases h1 : k0 = k1
    · subst h1
      by_cases h2 : k0 = k <;> simp [lookupKey, h2]
    · rw [if_neg h1]
      by_cases h2 : f k0 < f k1
      · rw [if_pos h2]
        simp [lookupKey]
      · rw [if_neg h2]
        simp only [lookupKey, ih]
        by_cases h3 : k1 = k
        · subst h3
          simp [h1]
        · by_cases h4 : k0 = k <;> simp [h3, h4]

/-- Looking up after `pop`: the popped key is gone, every other key is
untouched. -/
theorem lookupKey_popKey (k0 k : ℚ) (l : List (ℚ × ℚ)) :
    lookupKey k (popKey k0 l) = if k0 = k then none else lookupKey k l := by
  induction l with
  | nil => simp [popKey, lookupKey]
  | cons hd tl ih =>
    obtain ⟨k1, v1⟩ := hd
    simp only [popKey, List.filter_cons] at ih ⊢
    by_cases h1 : k1 = k0 <;> by_cases h2 : k0 = k <;>
      simp_all [lookupKey]

/-- Popping a key twice is the same as popping it once. -/
theorem popKey_popKey (k : ℚ) (l : List (ℚ × ℚ)) :
    popKey k (popKey k l) = popKey k l := by
  simp [popKey, List.filter_filter]

/-- Every entry of an insertion result is the inserted pair or an original
entry. -/
theorem mem_insertSorted (f : ℚ → ℚ) (k0 v : ℚ) (l : List (ℚ × ℚ)) (x : ℚ × ℚ)
    (hx : x ∈ insertSorted f k0 v l) : x = (k0, v) ∨ x ∈ l := by
  induction l with
  | nil => simpa [insertSorted] using hx
  | cons hd tl ih =>
    obtain ⟨k1, v1⟩ := hd
    simp only [insertSorted] at hx
    split_ifs at hx with h1 h2
    · rcases List.mem_cons.mp hx with h | h
      · exact Or.inl (by simpa using h)
      · exact Or.inr (List.mem_cons_of_mem _ h)
    · rcases List.mem_cons.mp hx with h | h
      · exact Or.inl (by simpa using h)
      · exact Or.inr h
    · rcases List.mem_cons.mp hx with h | h
      · exact Or.inr (List.mem_cons.mpr (Or.inl h))
      · rcases ih h with h' | h'
        · exact Or.inl h'
        · exact Or.inr (List.mem_cons_of_mem _ h')

/-- Unfolding one step of the snapshot-side build. -/
theorem buildSide_cons (f enc : ℚ → ℚ) (pq : ℚ × ℚ) (rest : List (ℚ × ℚ))
    (acc : List (ℚ × ℚ)) :
    buildSide f enc (pq :: rest) acc =
      buildSide f enc rest (if 0 < pq.2 then insertSorted f (enc pq.1) pq.2 acc else acc) := by
  simp [buildSide]

/-- Any successful lookup in a built side comes from the accumulator or
from a positive-quantity level of the input. -/
theorem lookupKey_buildSide_some (f enc : ℚ → ℚ) (levels : List (ℚ × ℚ)) :
    ∀ (acc : List (ℚ × ℚ)) (k v : ℚ),
      lookupKey k (buildSide f enc levels acc) = some v →
      lookupKey k acc = some v ∨ ∃ p q, (p, q) ∈ levels ∧ 0 < q ∧ k = enc p ∧ v = q := by
  induction levels with
  | nil =>
    intro acc k v h
    exact Or.inl (by simpa [buildSide] using h)
  | cons pq rest ih =>
    intro acc k v h
    rw [buildSide_cons] at h
    rcases ih _ k v h with h' | ⟨p, q, hmem, hq, hk, hv⟩
    · by_cases hpos : 0 < pq.2
      · rw [if_pos hpos, lookupKey_insertSorted] at h'
        by_cases hk : enc pq.1 = k
        · rw [if_pos hk] at h'
          exact Or.inr ⟨pq.1, pq.2, List.mem_cons_self _ _, hpos, hk.symm,
            (Option.some_inj.mp h').symm⟩
        · rw [if_neg hk] at h'
          exact Or.inl h'
      · rw [if_neg hpos] at h'
        exact Or.inl h'
    · exact Or.inr ⟨p, q, List.mem_cons_of_mem _ hmem, hq, hk, hv⟩

/-- A key encoded from no input price is looked up in the accumulator. -/
theorem lookupKey_buildSide_notin (f enc : ℚ → ℚ) (levels : List (ℚ × ℚ)) :
    ∀ (acc : List (ℚ × ℚ)) (k : ℚ), (∀ pq ∈ levels, enc pq.1 ≠ k) →
      lookupKey k (buildSide f enc levels acc) = lookupKey k acc := by
  induction levels with
  | nil => intro acc k _; rfl
  | cons pq rest ih =>
    intro acc k hk
    rw [buildSide_cons, ih _ k (fun x hx => hk x (List.mem_cons_of_mem _ hx))]
    by_cases hpos : 0 < pq.2
    · rw [if_pos hpos, lookupKey_insertSorted,
        if_neg (hk pq (List.mem_cons_self _ _))]
    · rw [if_neg hpos]

/-- With pairwise-distinct input prices, every positive-quantity level of
the input is found in the built side under its encoded key. -/
theorem lookupKey_buildSide_of_mem (f enc : ℚ → ℚ)
    (hinj : ∀ a b, enc a = enc b → a = b) (levels : List (ℚ × ℚ)) :
    ∀ (acc : List (ℚ × ℚ)) (p q : ℚ),
      levels.Pairwise (fun x y => x.1 ≠ y.1) → (p, q) ∈ levels → 0 < q →
      lookupKey (enc p) (buildSide f enc levels acc) = some q := by
  induction levels with
  | nil => intro _ _ _ _ h; cases h
  | cons pq rest ih =>
    intro acc p q hpw hmem hq
    rcases List.pairwise_cons.mp hpw with ⟨hhead, hrest⟩
    rcases List.mem_cons.mp hmem with h | h
    · have hp1 : pq.1 = p := by rw [← h]
      have hq2 : pq.2 = q := by rw [← h]
      have hnot : ∀ x ∈ rest, enc x.1 ≠ enc p := by
        intro x hx hEq
        exact hhead x hx (by rw [hp1]; exact (hinj _ _ hEq).symm)
      rw [buildSide_cons, lookupKey_buildSide_notin f enc rest _ (enc p) hnot,
        hp1, hq2, if_pos hq, lookupKey_insertSorted, if_pos rfl]
    · rw [buildSide_cons]
      exact ih _ p q hrest h hq

/-- Every entry of a built side comes from the accumulator or encodes a
positive-quantity level of the input. -/
theorem mem_buildSide (f enc : ℚ → ℚ) (levels : List (ℚ × ℚ)) :
    ∀ (acc : List (ℚ × ℚ)) (x : ℚ × ℚ), x ∈ buildSide f enc levels acc →
      x ∈ acc ∨ ∃ p q, (p, q) ∈ levels ∧ 0 < q ∧ x = (enc p, q) := by
  induction levels with
  | nil => intro acc x h; exact Or.inl (by simpa [buildSide] using h)
  | cons pq rest ih =>
    intro acc x h
    rw [buildSide_cons] at h
    rcases ih _ x h with h' | ⟨p, q, hmem, hq, hx⟩
    · by_cases hpos : 0 < pq.2
      · rw [if_pos hpos] at h'
        rcases mem_insertSorted _ _ _ _ _ h' with h'' | h''
        · exact Or.inr ⟨pq.1, pq.2, List.mem_cons_self _ _, hpos, h''⟩
        · exact Or.inl h''
      · rw [if_neg hpos] at h'
        exact Or.inl h'
    · exact Or.inr ⟨p, q, List.mem_cons_of_mem _ hmem, hq, hx⟩

/-- The result of the running-maximum fold is the accumulator or a list
element. -/
theorem foldl_max_mem (l : List ℚ) :
    ∀ (acc : Option ℚ) (m : ℚ),
      l.foldl (fun acc p => match acc with | none => some p | some a => some (max a p)) acc =
        some m →
      acc = some m ∨ m ∈ l := by
  induction l with
  | nil => intro acc m h; exact Or.inl (by simpa using h)
  | cons p rest ih =>
    intro acc m h
    simp only [List.foldl_cons] at h
    rcases ih _ m h with h' | h'
    · cases acc with
      | none =>
        simp only [Option.some_inj] at h'
        exact Or.inr (h' ▸ List.mem_cons_self _ _)
      | some a =>
        simp only [Option.some_inj] at h'
        rcases max_choice a p with hc | hc
        · exact Or.inl (by rw [← h', hc])
        · exact Or.inr (List.mem_cons.mpr (Or.inl (by rw [← h', hc])))
    · exact Or.inr (List.mem_cons_of_mem _ h')

/-- The result of the running-minimum fold is the accumulator or a list
element. -/
theorem foldl_min_mem (l : List ℚ) :
    ∀ (acc : Option ℚ) (m : ℚ),
      l.foldl (fun acc p => match acc with | none => some p | some a => some (min a p)) acc =
        some m →
      acc = some m ∨ m ∈ l := by
  induction l with
  | nil => intro acc m h; exact Or.inl (by simpa using h)
  | cons p rest ih =>
    intro acc m h
    simp only [List.foldl_cons] at h
    rcases ih _ m h with h' | h'
    · cases acc with
      | none =>
        simp only [Option.some_inj] at h'
        exact Or.inr (h' ▸ List.mem_cons_self _ _)
      | some a =>
        simp only [Option.some_inj] at h'
        rcases min_choice a p with hc | hc
        · exact Or.inl (by rw [← h', hc])
        · exact Or.inr (List.mem_cons.mpr (Or.inl (by rw [← h', hc])))
    · exact Or.inr (List.mem_cons_of_mem _ h')

/-- `maxPrice` returns a member of the list. -/
theorem maxPrice_mem (l : List ℚ) (m : ℚ) (h : maxPrice l = some m) : m ∈ l := by
  rcases foldl_max_mem l none m h with h' | h'
  · cases h'
  · exact h'

/-- `minPrice` returns a member of the list. -/
theorem minPrice_mem (l : List ℚ) (m : ℚ) (h : minPrice l = some m) : m ∈ l := by
  rcases foldl_min_mem l none m h with h' | h'
  · cases h'
  · exact h'

/-- C8: `_apply_updates` level semantics, per side (`applyBidLevel` /
`applyAskLevel` are its two fold steps): applying `(p, 0)` removes the key
for price `p` whether or not it was present, applying `(p, 0)` again leaves
the side unchanged, and applying `(p, q)` with `q ≠ 0` stores `q` under
price `p`'s key. -/
theorem C8_deletion_by_zero :
    ∀ (l : List (ℚ × ℚ)) (p : ℚ),
      lookupKey (-p) (applyBidLevel l (p, 0)) = none ∧
      applyBidLevel (applyBidLevel l (p, 0)) (p, 0) = applyBidLevel l (p, 0) ∧
      lookupKey p (applyAskLevel l (p, 0)) = none ∧
      applyAskLevel (applyAskLevel l (p, 0)) (p, 0) = applyAskLevel l (p, 0) ∧
      (∀ q : ℚ, q ≠ 0 →
        lookupKey (-p) (applyBidLevel l (p, q)) = some q ∧
        lookupKey p (applyAskLevel l (p, q)) = some q) := by
  intro l p
  refine ⟨?_, ?_, ?_, ?_, ?_⟩
  · simp [applyBidLevel, lookupKey_popKey]
  · simp [applyBidLevel, popKey_popKey]
  · simp [applyAskLevel, lookupKey_popKey]
  · simp [applyAskLevel, popKey_popKey]
  · intro q hq
    constructor
    · simp [applyBidLevel, hq, lookupKey_insertSorted]
    · simp [applyAskLevel, hq, lookupKey_insertSorted]

/-- Witness for C8 at the side `[(11, 1), (12, 2)]`, price 11 and the
nonzero quantity 3 (spec scenario 5's update values). -/
theorem C8_deletion_by_zero_witness :
    lookupKey (-11) (applyBidLevel [(11, 1), (12, 2)] (11, 0)) = none ∧
    applyBidLevel (applyBidLevel [(11, 1), (12, 2)] (11, 0)) (11, 0) =
      applyBidLevel [(11, 1), (12, 2)] (11, 0) ∧
    lookupKey 11 (applyAskLevel [(11, 1), (12, 2)] (11, 0)) = none ∧
    applyAskLevel (applyAskLevel [(11, 1), (12, 2)] (11, 0)) (11, 0) =
      applyAskLevel [(11, 1), (12, 2)] (11, 0) ∧
    ((3 : ℚ) ≠ 0 ∧
      lookupKey (-11) (applyBidLevel [(11, 1), (12, 2)] (11, 3)) = some 3 ∧
      lookupKey 11 (applyAskLevel [(11, 1), (12, 2)] (11, 3)) = some 3) := by
  have h := C8_deletion_by_zero [(11, 1), (12, 2)] 11
  exact ⟨h.1, h.2.1, h.2.2.1, h.2.2.2.1, by norm_num,
    (h.2.2.2.2 3 (by norm_num)).1, (h.2.2.2.2 3 (by norm_num)).2⟩

/-- C10: after `initialize_from_snapshot`, unconditionally: the book is
synchronized with `consecutive_failures = 0` and `last_update_id` equal to
the snapshot's `lastUpdateId`; the resulting sides do not depend on the
previous book contents (everything was cleared); every stored entry is a
positive-quantity snapshot level; and (for snapshots without duplicate
prices) every positive-quantity snapshot level is stored. -/
theorem C10_snapshot_init_postcondition :
    ∀ (ob ob' : LocalOrderBook) (snap : Snapshot),
      (initialize_from_snapshot ob snap).is_synchronized = true ∧
      (initialize_from_snapshot ob snap).consecutive_failures = 0 ∧
      (initialize_from_snapshot ob snap).last_update_id = snap.lastUpdateId ∧
      (initialize_from_snapshot ob snap).bids = (initialize_from_snapshot ob' snap).bids ∧
      (initialize_from_snapshot ob snap).asks = (initialize_from_snapshot ob' snap).asks ∧
      (∀ k q, lookupKey k (initialize_from_snapshot ob snap).bids = some q →
        ∃ p, (p, q) ∈ snap.bids ∧ 0 < q ∧ k = -p) ∧
      (∀ k q, lookupKey k (initialize_from_snapshot ob snap).asks = some q →
        (k, q) ∈ snap.asks ∧ 0 < q) ∧
      (snap.bids.Pairwise (fun x y => x.1 ≠ y.1) →
        ∀ p q, (p, q) ∈ snap.bids → 0 < q →
          lookupKey (-p) (initialize_from_snapshot ob snap).bids = some q) ∧
      (snap.asks.Pairwise (fun x y => x.1 ≠ y.1) →
        ∀ p q, (p, q) ∈ snap.asks → 0 < q →
          lookupKey p (initialize_from_snapshot ob snap).asks = some q) := by
  intro ob ob' snap
  refine ⟨rfl, rfl, rfl, rfl, rfl, ?_, ?_, ?_, ?_⟩
  · intro k q h
    rcases lookupKey_buildSide_some neg (fun p => -p) snap.bids [] k q h with h' | h'
    · simp [lookupKey] at h'
    · rcases h' with ⟨p, q', hmem, hq', hk, hv⟩
      exact ⟨p, hv ▸ hmem, hv ▸ hq', hk⟩
  · intro k q h
    rcases lookupKey_buildSide_some id (fun p => p) snap.asks [] k q h with h' | h'
    · simp [lookupKey] at h'
    · rcases h' with ⟨p, q', hmem, hq', hk, hv⟩
      rw [hk, hv]
      exact ⟨hmem, hq'⟩
  · intro hpw p q hmem hq
    exact lookupKey_buildSide_of_mem neg (fun p => -p)
      (fun a b hab => neg_inj.mp hab) snap.bids [] p q hpw hmem hq
  · intro hpw p q hmem hq
    exact lookupKey_buildSide_of_mem id (fun p => p)
      (fun a b hab => hab) snap.asks [] p q hpw hmem hq

/-- Witness for C10 at `exSnap` (`lastUpdateId = 100`, bid `(10, 1)`, ask
`(11, 1)`), with the nonempty `exBook` as the second (cleared) start
book. -/
theorem C10_snapshot_init_postcondition_witness :
    (initialize_from_snapshot (mkLocalOrderBook 1000) exSnap).is_synchronized = true ∧
    (initialize_from_snapshot (mkLocalOrderBook 1000) exSnap).consecutive_failures = 0 ∧
    (initialize_from_snapshot (mkLocalOrderBook 1000) exSnap).last_update_id =
      exSnap.lastUpdateId ∧
    (initialize_from_snapshot (mkLocalOrderBook 1000) exSnap).bids =
      (initialize_from_snapshot exBook exSnap).bids ∧
    (initialize_from_snapshot (mkLocalOrderBook 1000) exSnap).asks =
      (initialize_from_snapshot exBook exSnap).asks ∧
    (∃ p, (p, (1 : ℚ)) ∈ exSnap.bids ∧ (0 : ℚ) < 1 ∧ (-10 : ℚ) = -p) ∧
    (((11 : ℚ), (1 : ℚ)) ∈ exSnap.asks ∧ (0 : ℚ) < 1) ∧
    lookupKey (-10) (initialize_from_snapshot (mkLocalOrderBook 1000) exSnap).bids = some 1 ∧
    lookupKey 11 (initialize_from_snapshot (mkLocalOrderBook 1000) exSnap).asks = some 1 := by
  have h := C10_snapshot_init_postcondition (mkLocalOrderBook 1000) exBook exSnap
  exact ⟨h.1, h.2.1, h.2.2.1, h.2.2.2.1, h.2.2.2.2.1,
    h.2.2.2.2.2.1 (-10) 1 (by decide),
    h.2.2.2.2.2.2.1 11 1 (by decide),
    h.2.2.2.2.2.2.2.1 (by decide) 10 1 (by decide) (by decide),
    h.2.2.2.2.2.2.2.2 (by decide) 11 1 (by decide) (by decide)⟩

/-- C5 counterexample: starting from the un-crossed snapshot (bid 10, ask
11) and applying the perfectly continuous event `(U=101,u=101,pu=100)`
carrying the bid `(12, 1)`, the book is synchronized with maximum bid price
12 and minimum ask price 11 — a crossed book, refuting the claimed
invariant at this trace point (`_apply_updates` performs no cross check). -/
theorem C5_crossed_book_counterexample :
    exCrossedState.book.is_synchronized = true ∧
    maxPrice (bidPrices exCrossedState.book) = some 12 ∧
    minPrice (askPrices exCrossedState.book) = some 11 ∧
    ¬ (12 : ℚ) < 11 := by
  decide

/-- C5 amended: the no-crossed-book property is not preserved by applied
depth events (see the counterexample); what holds is that snapshot
initialization from an un-crossed snapshot yields an un-crossed book: if
every positive-quantity bid level of the snapshot lies strictly below every
positive-quantity ask level, then after `initialize_from_snapshot` the
maximum bid price is strictly below the minimum ask price. -/
theorem C5_uncrossed_after_snapshot_init :
    ∀ (ob : LocalOrderBook) (snap : Snapshot),
      (∀ pb qb, (pb, qb) ∈ snap.bids → 0 < qb →
        ∀ pa qa, (pa, qa) ∈ snap.asks → 0 < qa → pb < pa) →
      ∀ mb ma,
        maxPrice (bidPrices (initialize_from_snapshot ob snap)) = some mb →
        minPrice (askPrices (initialize_from_snapshot ob snap)) = some ma →
        mb < ma := by
  intro ob snap hun mb ma hmb hma
  rcases List.mem_map.mp (maxPrice_mem _ _ hmb) with ⟨kv, hkv, hkvEq⟩
  rcases List.mem_map.mp (minPrice_mem _ _ hma) with ⟨kv', hkv', hkvEq'⟩
  rcases mem_buildSide neg (fun p => -p) snap.bids [] kv hkv with h | ⟨p, q, hmem, hq, hx⟩
  · cases h
  · rcases mem_buildSide id (fun p => p) snap.asks [] kv' hkv' with h' | ⟨p', q', hmem', hq', hx'⟩
    · cases h'
    · have h1 : mb = p := by
        rw [← hkvEq, hx]
        simp
      have h2 : ma = p' := by
        rw [← hkvEq', hx']
      rw [h1, h2]
      exact hun p q hmem hq p' q' hmem' hq'

/-- Witness for C5's amended statement at `exSnap` (bid 10 below ask 11). -/
theorem C5_uncrossed_after_snapshot_init_witness :
    maxPrice (bidPrices (initialize_from_snapshot (mkLocalOrderBook 1000) exSnap)) = some 10 ∧
    minPrice (askPrices (initialize_from_snapshot (mkLocalOrderBook 1000) exSnap)) = some 11 ∧
    (10 : ℚ) < 11 := by
  refine ⟨by decide, by decide, ?_⟩
  refine C5_uncrossed_after_snapshot_init (mkLocalOrderBook 1000) exSnap ?_ 10 11
    (by decide) (by decide)
  intro pb qb hb _ pa qa ha _
  simp [exSnap] at hb ha
  rw [hb.1, ha.1]
  norm_num

/-!
## General lemmas about the batched writer
-/

/-- Reading a pointwise batch update at the written key. -/
theorem updBatch_same (f : RecordKind → String → List WriterRecord) (k : RecordKind)
    (s : String) (v : List WriterRecord) : updBatch f k s v k s = v := by
  simp [updBatch]

/-- Reading a pointwise batch update at another key. -/
theorem updBatch_ne (f : RecordKind → String → List WriterRecord) (k : RecordKind)
    (s : String) (v : List WriterRecord) (k' : RecordKind) (s' : String)
    (h : ¬(k' = k ∧ s' = s)) : updBatch f k s v k' s' = f k' s' := by
  simp [updBatch, h]

/-- Reading a pointwise file update at the written key. -/
theorem updFile_same (f : RecordKind → String → Option CsvFile) (k : RecordKind)
    (s : String) (v : Option CsvFile) : updFile f k s v k s = v := by
  simp [updFile]

/-- Reading a pointwise file update at another key. -/
theorem updFile_ne (f : RecordKind → String → Option CsvFile) (k : RecordKind)
    (s : String) (v : Option CsvFile) (k' : RecordKind) (s' : String)
    (h : ¬(k' = k ∧ s' = s)) : updFile f k s v k' s' = f k' s' := by
  simp [updFile, h]

/-- Writing rows touches no other file. -/
theorem writeRowsToFile_ne (files : RecordKind → String → Option CsvFile)
    (k : RecordKind) (s : String) (rows : List CsvRow) (k' : RecordKind) (s' : String)
    (h : ¬(k' = k ∧ s' = s)) : writeRowsToFile files k s rows k' s' = files k' s' := by
  by_cases hemp : rows.isEmpty <;>
    cases hcase : files k s <;>
      simp [writeRowsToFile, hemp, hcase, updFile, h]

/-- Writing rows appends them to the target file (creating it when
absent). -/
theorem fileRows_writeRowsToFile (files : RecordKind → String → Option CsvFile)
    (k : RecordKind) (s : String) (rows : List CsvRow) :
    fileRows (writeRowsToFile files k s rows k s) = fileRows (files k s) ++ rows := by
  by_cases hemp : rows.isEmpty
  · rw [List.isEmpty_iff.mp hemp]
    simp [writeRowsToFile]
  · cases hcase : files k s <;>
      simp [writeRowsToFile, hemp, hcase, updFile, fileRows]

/-- Writing rows keeps header soundness. -/
theorem headerOk_writeRowsToFile (files : RecordKind → String → Option CsvFile)
    (k : RecordKind) (s : String) (rows : List CsvRow) (h : headerOk files) :
    headerOk (writeRowsToFile files k s rows) := by
  intro k' s' f hf
  by_cases hks : k' = k ∧ s' = s
  · obtain ⟨hk, hs⟩ := hks
    subst hk; subst hs
    by_cases hemp : rows.isEmpty
    · rw [show writeRowsToFile files k' s' rows k' s' = files k' s' from by
        simp [writeRowsToFile, hemp]] at hf
      exact h k' s' f hf
    · cases hcase : files k' s' with
      | none =>
        rw [show writeRowsToFile files k' s' rows k' s' =
            some { headerCount := 1, rows := rows } from by
          simp [writeRowsToFile, hemp, hcase, updFile]] at hf
        cases hf
        rfl
      | some f0 =>
        rw [show writeRowsToFile files k' s' rows k' s' =
            some { headerCount := f0.headerCount, rows := f0.rows ++ rows } from by
          simp [writeRowsToFile, hemp, hcase, updFile]] at hf
        cases hf
        exact h k' s' f0 hcase
  · rw [writeRowsToFile_ne files k s rows k' s' hks] at hf
    exact h k' s' f hf

/-- Unfolding one record of the snapshot flush. -/
theorem flushSnapshotBatch_cons (files : RecordKind → String → Option CsvFile)
    (s0 : String) (r : WriterRecord) (rest : List WriterRecord) :
    flushSnapshotBatch files s0 (r :: rest) =
      flushSnapshotBatch
        (updFile files RecordKind.snapshot s0 (some { headerCount := 1, rows := snapshotRows r }))
        s0 rest := by
  simp [flushSnapshotBatch]

/-- The snapshot flush touches only the snapshot kind's files. -/
theorem flushSnapshotBatch_ne (records : List WriterRecord) :
    ∀ (files : RecordKind → String → Option CsvFile) (s0 : String) (k : RecordKind)
      (s : String), k ≠ RecordKind.snapshot →
      flushSnapshotBatch files s0 records k s = files k s := by
  induction records with
  | nil => intro files s0 k s _; rfl
  | cons r rest ih =>
    intro files s0 k s hk
    rw [flushSnapshotBatch_cons, ih _ s0 k s hk, updFile_ne]
    intro hks
    exact hk hks.1

/-- The snapshot flush keeps header soundness (each overwrite writes one
header). -/
theorem headerOk_flushSnapshotBatch (records : List WriterRecord) :
    ∀ (files : RecordKind → String → Option CsvFile) (s0 : String), headerOk files →
      headerOk (flushSnapshotBatch files s0 records) := by
  induction records with
  | nil => intro files s0 h; exact h
  | cons r rest ih =>
    intro files s0 h
    rw [flushSnapshotBatch_cons]
    refine ih _ s0 ?_
    intro k' s' f hf
    by_cases hks : k' = RecordKind.snapshot ∧ s' = s0
    · obtain ⟨hk, hs⟩ := hks
      subst hk; subst hs
      rw [updFile_same] at hf
      cases hf
      rfl
    · rw [updFile_ne _ _ _ _ _ _ hks] at hf
      exact h k' s' f hf

/-- The non-snapshot kinds dispatch to the row flush. -/
theorem flushBatchFor_row (files : RecordKind → String → Option CsvFile) (k : RecordKind)
    (s : String) (records : List WriterRecord) (hk : k ≠ RecordKind.snapshot) :
    flushBatchFor files k s records = flushRowBatch files k s records := by
  cases k <;> first | rfl | exact absurd rfl hk

/-- Unfolding `flushOne` on a nonempty batch. -/
theorem flushOne_eq (st : WriterState) (k : RecordKind) (s : String)
    (hemp : ¬(st.batches k s).isEmpty = true) :
    flushOne st k s =
      { keys := st.keys
        batches := updBatch st.batches k s []
        files := flushBatchFor st.files k s (st.batches k s) } := by
  simp [flushOne, hemp]

/-- `flushOne` on an empty batch is the identity. -/
theorem flushOne_eq_empty (st : WriterState) (k : RecordKind) (s : String)
    (hemp : (st.batches k s).isEmpty = true) : flushOne st k s = st := by
  simp [flushOne, hemp]

/-- `flushOne` keeps the key list. -/
theorem flushOne_keys (st : WriterState) (k : RecordKind) (s : String) :
    (flushOne st k s).keys = st.keys := by
  by_cases hemp : (st.batches k s).isEmpty = true
  · rw [flushOne_eq_empty st k s hemp]
  · rw [flushOne_eq st k s hemp]

/-- After `flushOne` the flushed batch is empty. -/
theorem flushOne_batchAt (st : WriterState) (k : RecordKind) (s : String) :
    (flushOne st k s).batches k s = [] := by
  by_cases hemp : (st.batches k s).isEmpty = true
  · rw [flushOne_eq_empty st k s hemp]
    exact List.isEmpty_iff.mp hemp
  · rw [flushOne_eq st k s hemp]
    exact updBatch_same _ _ _ _

/-- `flushOne` leaves every other batch alone. -/
theorem flushOne_batches_ne (st : WriterState) (k : RecordKind) (s : String)
    (k' : RecordKind) (s' : String) (h : ¬(k' = k ∧ s' = s)) :
    (flushOne st k s).batches k' s' = st.batches k' s' := by
  by_cases hemp : (st.batches k s).isEmpty = true
  · rw [flushOne_eq_empty st k s hemp]
  · rw [flushOne_eq st k s hemp]
    exact updBatch_ne _ _ _ _ _ _ h

/-- `flushOne` moves pending rows into the file: the accounted rows of
every non-snapshot key are unchanged. -/
theorem flushOne_contentsAt (st : WriterState) (k0 : RecordKind) (s0 : String)
    (k : RecordKind) (s : String) (hk : k ≠ RecordKind.snapshot) :
    contentsAt (flushOne st k0 s0) k s = contentsAt st k s := by
  by_cases hemp : (st.batches k0 s0).isEmpty = true
  · rw [flushOne_eq_empty st k0 s0 hemp]
  · rw [flushOne_eq st k0 s0 hemp]
    by_cases hks : k = k0 ∧ s = s0
    · obtain ⟨h1, h2⟩ := hks
      subst h1; subst h2
      unfold contentsAt
      simp only [updBatch_same, List.map_nil, List.append_nil]
      rw [flushBatchFor_row _ _ _ _ hk]
      unfold flushRowBatch
      rw [fileRows_writeRowsToFile]
    · unfold contentsAt
      simp only [updBatch_ne _ _ _ _ _ _ hks]
      by_cases hk0 : k0 = RecordKind.snapshot
      · subst hk0
        rw [show flushBatchFor st.files RecordKind.snapshot s0 (st.batches RecordKind.snapshot s0) =
            flushSnapshotBatch st.files s0 (st.batches RecordKind.snapshot s0) from rfl,
          flushSnapshotBatch_ne _ _ _ _ _ hk]
      · rw [flushBatchFor_row _ _ _ _ hk0]
        unfold flushRowBatch
        rw [writeRowsToFile_ne]
        intro hcon
        exact hks ⟨hcon.1, hcon.2⟩

/-- `flushOne` keeps header soundness. -/
theorem headerOk_flushOne (st : WriterState) (k0 : RecordKind) (s0 : String)
    (h : headerOk st.files) : headerOk (flushOne st k0 s0).files := by
  by_cases hemp : (st.batches k0 s0).isEmpty = true
  · rw [flushOne_eq_empty st k0 s0 hemp]
    exact h
  · rw [flushOne_eq st k0 s0 hemp]
    by_cases hk0 : k0 = RecordKind.snapshot
    · subst hk0
      exact headerOk_flushSnapshotBatch _ _ _ h
    · show headerOk (flushBatchFor st.files k0 s0 (st.batches k0 s0))
      rw [flushBatchFor_row _ _ _ _ hk0]
      exact headerOk_writeRowsToFile _ _ _ _ h

/-- `flushOne` preserves the writer invariant. -/
theorem flushOne_good (st : WriterState) (recvd : List WriterRecord) (k0 : RecordKind)
    (s0 : String) (h : goodState st recvd) : goodState (flushOne st k0 s0) recvd := by
  obtain ⟨h1, h2, h3⟩ := h
  refine ⟨?_, ?_, headerOk_flushOne st k0 s0 h3⟩
  · intro k s hne
    rw [flushOne_keys]
    by_cases hks : k = k0 ∧ s = s0
    · obtain ⟨hk, hs⟩ := hks
      subst hk; subst hs
      exact absurd (flushOne_batchAt st k s) hne
    · exact h1 k s (by rwa [flushOne_batches_ne st k0 s0 k s hks] at hne)
  · intro k s hk
    rw [flushOne_contentsAt st k0 s0 k s hk]
    exact h2 k s hk

/-- The fold underlying `flush_batches` preserves the invariant. -/
theorem foldl_flushOne_good (L : List (RecordKind × String)) :
    ∀ (st : WriterState) (recvd : List WriterRecord), goodState st recvd →
      goodState (L.foldl (fun s ks => flushOne s ks.1 ks.2) st) recvd := by
  induction L with
  | nil => intro st recvd h; exact h
  | cons x rest ih =>
    intro st recvd h
    exact ih _ recvd (flushOne_good st recvd x.1 x.2 h)

/-- `flush_batches` preserves the invariant. -/
theorem flushAll_good (st : WriterState) (recvd : List WriterRecord)
    (h : goodState st recvd) : goodState (flushAll st) recvd :=
  foldl_flushOne_good st.keys st recvd h

/-- After folding `flushOne` over a key list covering every nonempty batch,
all batches are empty. -/
theorem foldl_flushOne_batches (L : List (RecordKind × String)) :
    ∀ (st : WriterState) (k : RecordKind) (s : String),
      ((k, s) ∈ L ∨ st.batches k s = []) →
      (L.foldl (fun s ks => flushOne s ks.1 ks.2) st).batches k s = [] := by
  induction L with
  | nil =>
    intro st k s h
    rcases h with h | h
    · cases h
    · exact h
  | cons x rest ih =>
    intro st k s h
    refine ih _ k s ?_
    rcases h with h | h
    · rcases List.mem_cons.mp h with h | h
      · right
        rw [← h]
        exact flushOne_batchAt st k s
      · exact Or.inl h
    · right
      by_cases hks : k = x.1 ∧ s = x.2
      · obtain ⟨h1', h2'⟩ := hks
        subst h1'; subst h2'
        exact flushOne_batchAt st x.1 x.2
      · rw [flushOne_batches_ne st x.1 x.2 k s hks]
        exact h

/-- After `flush_batches` no batch is pending (given the key-registration
invariant). -/
theorem flushAll_batches_empty (st : WriterState)
    (h1 : ∀ k s, st.batches k s ≠ [] → (k, s) ∈ st.keys) (k : RecordKind) (s : String) :
    (flushAll st).batches k s = [] := by
  refine foldl_flushOne_batches st.keys st k s ?_
  by_cases hb : st.batches k s = []
  · exact Or.inr hb
  · exact Or.inl (h1 k s hb)

/-- Filtering one key out of an extended record list. -/
theorem recordsFor_append (k : RecordKind) (s : String) (l1 l2 : List WriterRecord) :
    recordsFor k s (l1 ++ l2) = recordsFor k s l1 ++ recordsFor k s l2 := by
  simp [recordsFor]

/-- Receiving a record preserves the invariant, with the record appended to
the consumed list. -/
theorem recvRecord_good (batch_size : Nat) (st : WriterState) (r : WriterRecord)
    (recvd : List WriterRecord) (h : goodState st recvd) :
    goodState (recvRecord batch_size st r) (recvd ++ [r]) := by
  obtain ⟨h1, h2, h3⟩ := h
  have hkeymem : (r.kind, r.symbol) ∈
      (if (r.kind, r.symbol) ∈ st.keys then st.keys else st.keys ++ [(r.kind, r.symbol)]) := by
    split
    · next hmem => exact hmem
    · exact List.mem_append_right _ (List.mem_cons_self _ _)
  have hkeysub : ∀ x ∈ st.keys, x ∈
      (if (r.kind, r.symbol) ∈ st.keys then st.keys else st.keys ++ [(r.kind, r.symbol)]) := by
    intro x hx
    split
    · exact hx
    · exact List.mem_append_left _ hx
  have hgood2 : goodState
      { st with
        keys := if (r.kind, r.symbol) ∈ st.keys then st.keys else st.keys ++ [(r.kind, r.symbol)]
        batches := updBatch st.batches r.kind r.symbol (st.batches r.kind r.symbol ++ [r]) }
      (recvd ++ [r]) := by
    refine ⟨?_, ?_, h3⟩
    · intro k s hne
      have hne' : updBatch st.batches r.kind r.symbol
          (st.batches r.kind r.symbol ++ [r]) k s ≠ [] := hne
      show (k, s) ∈
        (if (r.kind, r.symbol) ∈ st.keys then st.keys else st.keys ++ [(r.kind, r.symbol)])
      by_cases hks : k = r.kind ∧ s = r.symbol
      · obtain ⟨hk, hs⟩ := hks
        subst hk; subst hs
        exact hkeymem
      · rw [updBatch_ne _ _ _ _ _ _ hks] at hne'
        exact hkeysub _ (h1 k s hne')
    · intro k s hk
      show fileRows (st.files k s) ++
          List.map CsvRow.ofRecord
            (updBatch st.batches r.kind r.symbol (st.batches r.kind r.symbol ++ [r]) k s) =
        List.map CsvRow.ofRecord (recordsFor k s (recvd ++ [r]))
      have h2' := h2 k s hk
      unfold contentsAt at h2'
      rw [recordsFor_append]
      by_cases hks : k = r.kind ∧ s = r.symbol
      · obtain ⟨hkk, hss⟩ := hks
        subst hkk; subst hss
        have hr : recordsFor r.kind r.symbol [r] = [r] := by
          simp [recordsFor]
        rw [updBatch_same, hr, List.map_append, List.map_append, ← List.append_assoc, h2']
      · have hr : recordsFor k s [r] = [] := by
          have hno : ¬(r.kind = k ∧ r.symbol = s) := by
            intro hcon
            exact hks ⟨hcon.1.symm, hcon.2.symm⟩
          simp [recordsFor, hno]
        rw [updBatch_ne _ _ _ _ _ _ hks, hr, List.append_nil]
        exact h2'
  simp only [recvRecord]
  split
  · exact flushOne_good _ _ _ _ hgood2
  · exact hgood2

/-- One step of the writer loop preserves the invariant. -/
theorem writerStep_good (batch_size : Nat) (st : WriterState) (op : WriterOp)
    (recvd : List WriterRecord) (h : goodState st recvd) :
    goodState (writerStep batch_size st op) (recvd ++ receivedRecords [op]) := by
  cases op with
  | recv r =>
    have : receivedRecords [WriterOp.recv r] = [r] := rfl
    rw [this]
    exact recvRecord_good batch_size st r recvd h
  | tick =>
    have : receivedRecords [WriterOp.tick] = [] := rfl
    rw [this, List.append_nil]
    exact flushAll_good st recvd h

/-- The empty writer state satisfies the invariant with nothing consumed. -/
theorem goodState_init : goodState initWriterState [] := by
  refine ⟨?_, ?_, ?_⟩
  · intro k s hne
    exact absurd rfl hne
  · intro k s _
    simp [contentsAt, initWriterState, fileRows, recordsFor]
  · intro k s f hf
    cases hf

/-- Running any writer schedule preserves the invariant. -/
theorem runWriter_good (batch_size : Nat) (ops : List WriterOp) :
    ∀ (st : WriterState) (recvd : List WriterRecord), goodState st recvd →
      goodState (ops.foldl (writerStep batch_size) st) (recvd ++ receivedRecords ops) := by
  induction ops with
  | nil =>
    intro st recvd h
    simpa [receivedRecords] using h
  | cons op rest ih =>
    intro st recvd h
    have hstep := writerStep_good batch_size st op recvd h
    have := ih _ _ hstep
    have hsplit : receivedRecords (op :: rest) = receivedRecords [op] ++ receivedRecords rest := by
      cases op <;> simp [receivedRecords]
    rw [hsplit, ← List.append_assoc]
    exact this

/-- C9 counterexample: the claim's "each record is written to its kind's
CSV file in exactly one row" fails for the `depth_snapshot` kind: consuming
the single record `exSnapRec` (one bid, two asks) produces a file with
THREE long-format rows; and consuming a second snapshot record for the same
symbol does not append — it overwrites the file, losing the first record's
rows (two records consumed, one row left). -/
theorem C9_snapshot_record_not_one_row :
    (flushAll (runWriterOps 100 [WriterOp.recv exSnapRec])).files RecordKind.snapshot "B" =
      some { headerCount := 1
             rows := [CsvRow.ofLevel true 1 10 1, CsvRow.ofLevel false 1 11 1,
                      CsvRow.ofLevel false 2 12 2] } ∧
    (receivedRecords [WriterOp.recv exSnapRec]).length = 1 ∧
    (flushAll (runWriterOps 100 [WriterOp.recv exSnapRec, WriterOp.tick,
        WriterOp.recv exSnapRec2])).files RecordKind.snapshot "B" =
      some { headerCount := 1, rows := [CsvRow.ofLevel true 1 9 5] } ∧
    (receivedRecords [WriterOp.recv exSnapRec, WriterOp.tick,
        WriterOp.recv exSnapRec2]).length = 2 := by
  decide

/-- C9 amended: for the four row kinds (`aggtrade`, `depth`, `kline`,
`orderbook_summary`), every record consumed by the writer ends up in
exactly one CSV row of its (kind, symbol) file — none duplicated across the
size-trigger and time-trigger flush paths, none dropped — and each such
file holds exactly one header line, written at creation, with every later
write appending rows only; the `depth_snapshot` kind instead overwrites its
file with one row per price level (see the counterexample). -/
theorem C9_row_kinds_exactly_once :
    ∀ (batch_size : Nat) (ops : List WriterOp) (k : RecordKind) (s : String),
      k ≠ RecordKind.snapshot →
      (match (flushAll (runWriterOps batch_size ops)).files k s with
       | none => recordsFor k s (receivedRecords ops) = []
       | some f =>
         f.rows = (recordsFor k s (receivedRecords ops)).map CsvRow.ofRecord ∧
         f.headerCount = 1) := by
  intro batch_size ops k s hk
  have hrun : goodState (runWriterOps batch_size ops) (receivedRecords ops) := by
    have h := runWriter_good batch_size ops initWriterState [] goodState_init
    simpa [runWriterOps] using h
  have hfin := flushAll_good _ _ hrun
  have hempty := flushAll_batches_empty _ hrun.1 k s
  have hc := hfin.2.1 k s hk
  unfold contentsAt at hc
  rw [hempty] at hc
  simp only [List.map_nil, List.append_nil] at hc
  cases hfile : (flushAll (runWriterOps batch_size ops)).files k s with
  | none =>
    rw [hfile] at hc
    simp only [fileRows] at hc
    rw [eq_comm, List.map_eq_nil_iff] at hc
    exact hc
  | some f =>
    rw [hfile] at hc
    simp only [fileRows] at hc
    exact ⟨hc, hfin.2.2 k s f hfile⟩

/-- Witness for C9's amended statement: batch size 2 with two depth records
(size-trigger flush), a third depth record and a time-trigger flush — the
depth file for symbol "B" holds the three records' rows in order under one
header. -/
theorem C9_row_kinds_exactly_once_witness :
    (match (flushAll (runWriterOps 2 exWriterOps)).files RecordKind.depth "B" with
     | none => recordsFor RecordKind.depth "B" (receivedRecords exWriterOps) = []
     | some f =>
       f.rows = (recordsFor RecordKind.depth "B" (receivedRecords exWriterOps)).map
           CsvRow.ofRecord ∧
       f.headerCount = 1) :=
  C9_row_kinds_exactly_once 2 exWriterOps RecordKind.depth "B" (by decide)

end BinanceStreamer
